import Mathlib

/-!
Shallow embedding of the srndv2 article index (src/srnd/redis.go), the
article store / message parser (src/srnd/store.go) and the signature
verification entry points, for checking the natural-language specification
against the code.

Redis sorted sets ("weighted keyrings") are modelled as association lists
from member strings to integer scores; redis sets are modelled as lists of
strings without duplicates (an empty list models an absent key, matching
redis semantics where removing the last member deletes the key).  Unix
timestamps are modelled as `Int`; the `float64` scores used by the Go redis
client represent these integers exactly in the ranges that occur.
-/

namespace Srnd

/-- A redis sorted set (zset): association list member → score.
`ZADD` variants below mirror the `NX`/`XX` flags used in redis.go. -/
abbrev ZSet := List (String × Int)

/-- Redis `ZSCORE`: the score of a member, `none` when absent. -/
def zscore (z : ZSet) (m : String) : Option Int :=
  (z.find? (fun p => decide (p.1 = m))).map (fun p => p.2)

/-- Membership in a sorted set (`ZRANK` succeeding / `ZSCORE` non-nil). -/
def zmem (z : ZSet) (m : String) : Bool :=
  (zscore z m).isSome

/-- Redis `ZADD NX`: add the member with the given score only when it is absent. -/
def zaddNX (z : ZSet) (m : String) (sc : Int) : ZSet :=
  if zmem z m then z else z ++ [(m, sc)]

/-- Redis `ZADD XX`: update the member's score only when it is already present. -/
def zaddXX (z : ZSet) (m : String) (sc : Int) : ZSet :=
  if zmem z m then z.map (fun p => if p.1 = m then (m, sc) else p) else z

/-- Redis `ZREM`: remove a member. -/
def zrem (z : ZSet) (m : String) : ZSet :=
  z.filter (fun p => decide (p.1 ≠ m))

/-- Redis `ZCARD`: number of members. -/
def zcard (z : ZSet) : Int :=
  (z.length : Int)

/-- Redis `SADD` on a set modelled as a duplicate-free list. -/
def sadd (s : List String) (x : String) : List String :=
  if x ∈ s then s else s ++ [x]

/-- Redis `SREM` on a set modelled as a duplicate-free list. -/
def srem (s : List String) (x : String) : List String :=
  s.filter (fun y => decide (y ≠ x))

/-- Point update of a map modelled as a function. -/
def upd {α : Type} (f : String → α) (k : String) (v : α) : String → α :=
  fun k2 => if k2 = k then v else f k2

/-- The `NNTP::Article::<msgid>` hash written by `RegisterArticle`
(redis.go:697). -/
structure ArticleRecord where
  msgid : String
  messageIdHash : String
  messageNewsgroup : String
  timeObtained : Int
  messageRefId : String
deriving DecidableEq

/-- The `NNTP::ArticlePost::<msgid>` hash written by `RegisterArticle`
(redis.go:705). -/
structure ArticlePostRecord where
  newsgroup : String
  messageId : String
  refId : String
  name : String
  subject : String
  path : String
  timePosted : Int
  message : String
  addr : String
deriving DecidableEq

/-- The `NNTP::Attachment::<hash>` hash; each field is written with
`HSETNX` (redis.go:748-751), hence the `Option` per field. -/
structure AttachmentRecord where
  messageId : Option String
  shaHash : Option String
  filename : Option String
  filepath : Option String
deriving DecidableEq

/-- Redis `HSETNX`: set a hash field only when it is currently unset. -/
def hsetnx (cur : Option String) (v : String) : Option String :=
  match cur with
  | some old => some old
  | none => some v

/-- One attachment of an article, as consumed by `RegisterArticle`
(redis.go:742-753): the hex-encoded SHA-512 (`hex.EncodeToString(att.Hash())`),
the original filename and the storage filepath. -/
structure AttachmentInfo where
  hashHex : String
  filename : String
  filepath : String
deriving DecidableEq

/-- The `NNTPMessage` interface values consumed by `RedisDB.RegisterArticle`:
one field per accessor method used in redis.go. -/
structure ArticleMsg where
  messageID : String
  newsgroup : String
  reference : String
  name : String
  subject : String
  path : String
  posted : Int
  message : String
  addr : String
  op : Bool
  sage : Bool
  headers : List (String × List String)
  attachments : List AttachmentInfo

/-- The redis database state: one component per key family of redis.go.
Per-group and per-root keyrings are functions from the group / root name. -/
structure DBState where
  groupPosttime : ZSet
  groupArticlePosttime : String → ZSet
  groupThreadPosttime : String → ZSet
  groupThreadBumptime : String → ZSet
  threadPosts : String → ZSet
  articleWKR : ZSet
  threadBumptimeAll : ZSet
  articles : String → Option ArticleRecord
  articlePosts : String → Option ArticlePostRecord
  articleKeys : String → Option String
  hashMsgid : String → Option String
  headerKR : String → List String
  msgidHeaderKR : String → List String
  attachmentArticles : String → List String
  articleAttachments : String → List String
  attachmentRecords : String → Option AttachmentRecord
  ipBan : String → Bool
  ipRangeBan : List String
  ipRangeStart : String → Option String

/-- The empty database. -/
def emptyDB : DBState where
  groupPosttime := []
  groupArticlePosttime := fun _ => []
  groupThreadPosttime := fun _ => []
  groupThreadBumptime := fun _ => []
  threadPosts := fun _ => []
  articleWKR := []
  threadBumptimeAll := []
  articles := fun _ => none
  articlePosts := fun _ => none
  articleKeys := fun _ => none
  hashMsgid := fun _ => none
  headerKR := fun _ => []
  msgidHeaderKR := fun _ => []
  attachmentArticles := fun _ => []
  articleAttachments := fun _ => []
  attachmentRecords := fun _ => none
  ipBan := fun _ => false
  ipRangeBan := []
  ipRangeStart := fun _ => none

/-- Modelled from the spec: `HashMessageID` (in util.go, not under src/) maps
a message-id to the hash used for the hash→msgid mapping; only injectivity of
the tagging matters to the claims, so it is modelled as a tagging function. -/
def HashMessageID (msgid : String) : String :=
  "hashof:" ++ msgid

/-- Embeds `RedisDB.HasNewsgroup` (redis.go:603): `ZRANK` of the group in
`GroupPostTimeWKR` succeeds iff the group is a member. -/
def HasNewsgroup (s : DBState) (group : String) : Bool :=
  zmem s.groupPosttime group

/-- Embeds `RedisDB.HasArticle` (redis.go:609): `EXISTS NNTP::Article::<msgid>`. -/
def HasArticle (s : DBState) (msgid : String) : Bool :=
  (s.articles msgid).isSome

/-- Embeds `RedisDB.RegisterNewsgroup` (redis.go:637): `ZADD NX` of the group into
`GroupPostTimeWKR` scored by `timeNow()` (passed as `now`). -/
def RegisterNewsgroup (s : DBState) (now : Int) (group : String) : DBState :=
  { s with groupPosttime := zaddNX s.groupPosttime group now }

/-- The header registration loop of `RegisterArticle` (redis.go:733-739),
returning the updated `HeaderKR` and `MessageIDHeaderKR` maps (the loop
touches no other key family). -/
def addHeaders (msgid : String) (hk mk : String → List String) :
    List (String × List String) → (String → List String) × (String → List String)
  | [] => (hk, mk)
  | (k, vs) :: rest =>
    let maps := vs.foldl
      (fun (maps : (String → List String) × (String → List String)) v =>
        let header := "Name::" ++ k ++ "::Value::" ++ v
        (upd maps.1 header (sadd (maps.1 header) msgid),
         upd maps.2 msgid (sadd (maps.2 msgid) header)))
      (hk, mk)
    addHeaders msgid maps.1 maps.2 rest

/-- The attachment registration loop of `RegisterArticle` (redis.go:742-753),
returning the updated `AttachmentArticlesKR`, `ArticleAttachmentsKR` and
`Attachment` record maps (the loop touches no other key family). -/
def addAttachments (msgid : String)
    (aa ak : String → List String) (ar : String → Option AttachmentRecord) :
    List AttachmentInfo →
      (String → List String) × (String → List String) × (String → Option AttachmentRecord)
  | [] => (aa, ak, ar)
  | att :: rest =>
    let hash := att.hashHex
    let aa2 := upd aa hash (sadd (aa hash) msgid)
    let ak2 := upd ak msgid (sadd (ak msgid) hash)
    let old := (ar hash).getD ⟨none, none, none, none⟩
    let arec : AttachmentRecord :=
      { messageId := hsetnx old.messageId msgid
        shaHash := hsetnx old.shaHash hash
        filename := hsetnx old.filename att.filename
        filepath := hsetnx old.filepath att.filepath }
    addAttachments msgid aa2 ak2 (upd ar hash (some arec)) rest

/-- Embeds `RedisDB.RegisterArticle` (redis.go:681-759).  `nowG` is the `timeNow()`
read inside `RegisterNewsgroup`, `now` the one read at redis.go:694; the
pipelined writes are replayed in program order on the state. -/
def RegisterArticle (s0 : DBState) (nowG now : Int) (m : ArticleMsg) : DBState :=
  let msgid := m.messageID
  let group := m.newsgroup
  let s1 := if HasNewsgroup s0 group then s0 else RegisterNewsgroup s0 nowG group
  if HasArticle s1 msgid then s1
  else
    let s2 := { s1 with
      articles := upd s1.articles msgid
        (some ⟨msgid, HashMessageID msgid, group, now, m.reference⟩)
      hashMsgid := upd s1.hashMsgid (HashMessageID msgid) (some msgid) }
    let s3 := { s2 with
      groupPosttime := zaddXX s2.groupPosttime group now
      groupArticlePosttime := upd s2.groupArticlePosttime group
        (zaddNX (s2.groupArticlePosttime group) msgid now) }
    let s4 := { s3 with
      articlePosts := upd s3.articlePosts msgid
        (some ⟨group, msgid, m.reference, m.name, m.subject, m.path,
               m.posted, m.message, m.addr⟩) }
    let s5 := if group ≠ "ctl" then
        { s4 with articleWKR := zaddNX s4.articleWKR msgid now }
      else s4
    let s6 :=
      if m.op then
        let a := { s5 with
          groupThreadPosttime := upd s5.groupThreadPosttime group
            (zaddNX (s5.groupThreadPosttime group) msgid m.posted)
          groupThreadBumptime := upd s5.groupThreadBumptime group
            (zaddNX (s5.groupThreadBumptime group) msgid m.posted) }
        if group ≠ "ctl" then
          { a with threadBumptimeAll := zaddNX a.threadBumptimeAll msgid m.posted }
        else a
      else
        let ref := m.reference
        let a := if !m.sage then
            { s5 with
              groupThreadBumptime := upd s5.groupThreadBumptime group
                (zaddXX (s5.groupThreadBumptime group) ref m.posted)
              threadBumptimeAll := zaddXX s5.threadBumptimeAll ref m.posted }
          else s5
        let b := { a with
          groupThreadPosttime := upd a.groupThreadPosttime group
            (zaddXX (a.groupThreadPosttime group) ref m.posted) }
        { b with
          threadPosts := upd b.threadPosts ref
            (zaddNX (b.threadPosts ref) msgid m.posted) }
    let hdrs := addHeaders msgid s6.headerKR s6.msgidHeaderKR m.headers
    let s7 := { s6 with headerKR := hdrs.1, msgidHeaderKR := hdrs.2 }
    let atts := addAttachments msgid s7.attachmentArticles s7.articleAttachments
      s7.attachmentRecords m.attachments
    { s7 with attachmentArticles := atts.1, articleAttachments := atts.2.1,
              attachmentRecords := atts.2.2 }

/-- Embeds `RedisDB.GetLastAndFirstForGroup` (redis.go:889-899), returning
`(last, first)`: `last` starts as `ZCARD` of the group's article keyring and,
when non-zero, is incremented by one; `first` is always 1. -/
def GetLastAndFirstForGroup (s : DBState) (group : String) : Int × Int :=
  let last := zcard (s.groupArticlePosttime group)
  if last = 0 then (0, 1) else (last + 1, 1)

/-- The fields of the post model built by `RedisDB.GetPostModel`
(redis.go:440-473) that `DeleteArticle` consumes: `Board()`, `OP()` and
`Reference()`.  `op` is computed from the stored `ref_id` before the
empty-parent substitution, exactly as in the source. -/
structure PostModel where
  board : String
  messageId : String
  parent : String
  op : Bool
deriving DecidableEq

/-- Embeds `RedisDB.GetPostModel` (redis.go:440-473) restricted to the fields read
by `DeleteArticle`; returns `none` when the `ArticlePost` hash is absent
(the source then returns a nil model). -/
def GetPostModel (s : DBState) (msgid : String) : Option PostModel :=
  (s.articlePosts msgid).map (fun r =>
    let parent := r.refId
    { board := r.newsgroup
      messageId := r.messageId
      parent := if parent = "" then r.messageId else parent
      op := parent = "" })

/-- Embeds `RedisDB.DeleteArticle` (redis.go:492-525), replayed in program order.
The source removes the reverse attachment links and, when an attachment's
article set becomes empty, deletes the attachment record; it performs no
filesystem operation (the `TODO delete files from disk` comment at
redis.go:518 marks the spot). -/
def DeleteArticle (s : DBState) (msgid : String) : DBState :=
  match GetPostModel s msgid with
  | none => s
  | some p =>
    let s := if !p.op then
        { s with
          threadPosts := upd s.threadPosts p.parent
            (zrem (s.threadPosts p.parent) msgid) }
      else s
    let hash := match s.articles msgid with
      | some r => r.messageIdHash
      | none => ""
    let s := if hash ≠ "" then
        { s with hashMsgid := upd s.hashMsgid hash none }
      else s
    let s := { s with
      articles := upd s.articles msgid none
      articlePosts := upd s.articlePosts msgid none
      articleKeys := upd s.articleKeys msgid none }
    let s := { s with
      groupArticlePosttime := upd s.groupArticlePosttime p.board
        (zrem (s.groupArticlePosttime p.board) msgid)
      articleWKR := zrem s.articleWKR msgid }
    let hk := (s.msgidHeaderKR msgid).foldl
      (fun hk h => upd hk h (srem (hk h) msgid)) s.headerKR
    let s := { s with headerKR := hk, msgidHeaderKR := upd s.msgidHeaderKR msgid [] }
    let maps := (s.articleAttachments msgid).foldl
      (fun (maps : (String → List String) × (String → Option AttachmentRecord)) a =>
        let aa := upd maps.1 a (srem (maps.1 a) msgid)
        if (aa a).isEmpty then (aa, upd maps.2 a none) else (aa, maps.2))
      (s.attachmentArticles, s.attachmentRecords)
    { s with attachmentArticles := maps.1, attachmentRecords := maps.2,
             articleAttachments := upd s.articleAttachments msgid [] }

/-- The index together with the attachment directory contents, for stating
what `DeleteArticle` does (and does not do) to on-disk attachment files. -/
structure SysState where
  db : DBState
  disk : List String

/-- Embeds `DeleteArticle` seen on the whole system: the index is mutated as in
redis.go:492-525 and the attachment directory is untouched, because that
function issues no file removal (redis.go:518 is `TODO delete files from
disk`). -/
def DeleteArticleSys (sys : SysState) (msgid : String) : SysState :=
  { db := DeleteArticle sys.db msgid, disk := sys.disk }

/-- Lexicographic ≤ on character lists, mirroring the byte-wise comparison
of Go `strings.Compare` and of redis lexicographic zset ordering (the
strings involved are ASCII, where character order and byte order agree). -/
def charsLe : List Char → List Char → Bool
  | [], _ => true
  | _ :: _, [] => false
  | a :: as, b :: bs =>
    if a.toNat < b.toNat then true
    else if a.toNat = b.toNat then charsLe as bs
    else false

/-- Go `strings.Compare(a, b) <= 0`. -/
def strLe (a b : String) : Bool :=
  charsLe a.data b.data

/-- The least member of a list of strings under `strLe`. -/
def listMin : List String → Option String
  | [] => none
  | a :: t =>
    match listMin t with
    | none => some a
    | some b => some (if strLe a b then a else b)

/-- Redis `ZRANGEBYLEX key [lo + LIMIT 0 1` on a zset whose scores are all equal:
the lexicographically least member that is ≥ `lo` (redis.go:311). -/
def zrangeByLexFirstGE (l : List String) (lo : String) : Option String :=
  listMin (l.filter (fun e => strLe lo e))

/-- Embeds `RedisDB.CheckIPBanned` (redis.go:290-323).  `IsSubnet`,
`IPNet2MinMax` and `ZeroIPString` are not under src/; modelled from the
spec, the query is represented by its canonical zero-padded endpoints
`minEp` and `maxEp` (equal for a single address) together with the raw
`addr` string used for the individual-ip key.  Banned when the individual
key exists, or when the first `ip_range_ban` member ≥ `maxEp` has a stored
`start` ≤ `minEp` (`strings.Compare(range_start, range_min) >= 0`). -/
def CheckIPBanned (s : DBState) (addr minEp maxEp : String) : Bool :=
  if s.ipBan addr then true
  else
    match zrangeByLexFirstGE s.ipRangeBan maxEp with
    | none => false
    | some rangeMax =>
      match s.ipRangeStart rangeMax with
      | none => false
      | some rangeMin => strLe rangeMin minEp

/-- The ban lookup as the claim words it: banned iff the individual key
exists or SOME endpoint ≥ `maxEp` has stored start ≤ `minEp`.  Stated from
the spec sentence, to be compared with `CheckIPBanned`. -/
def checkIPBannedClaim (s : DBState) (addr minEp maxEp : String) : Bool :=
  s.ipBan addr ||
    s.ipRangeBan.any (fun e =>
      strLe maxEp e &&
        match s.ipRangeStart e with
        | some st => strLe st minEp
        | none => false)

/-- Modelled from the spec: `ValidMessageID` (util.go, not under src/) —
a message-id is valid iff it begins with `<`, ends with `>`, contains `@`,
and has total length within NNTP limits (250 octets, RFC 3977). -/
def ValidMessageID (s : String) : Bool :=
  decide (s.data.head? = some '<') && decide (s.data.getLast? = some '>')
    && s.data.contains '@' && decide (s.data.length ≤ 250)

/-- Embeds `articleStore.GetFilename` (store.go:312-318): an invalid message-id
yields the empty path (after logging); otherwise `filepath.Join` of the
store directory and the message-id.  The function performs no filesystem
access in the source, and its embedding is pure. -/
def GetFilename (directory msgid : String) : String :=
  if ValidMessageID msgid then directory ++ "/" ++ msgid else ""

/-- Value of one hex digit. -/
def hexDigit (c : Char) : Option Nat :=
  if '0' ≤ c ∧ c ≤ '9' then some (c.toNat - 48)
  else if 'a' ≤ c ∧ c ≤ 'f' then some (c.toNat - 87)
  else if 'A' ≤ c ∧ c ≤ 'F' then some (c.toNat - 55)
  else none

/-- Go `hex.DecodeString` on a character list: `none` on odd length or on a
non-hex character. -/
def hexDecodeChars : List Char → Option (List Nat)
  | [] => some []
  | [_] => none
  | a :: b :: rest =>
    match hexDigit a, hexDigit b, hexDecodeChars rest with
    | some x, some y, some r => some ((x * 16 + y) :: r)
    | _, _, _ => none

/-- Go `hex.DecodeString` (as used with an error check in message.go). -/
def hexDecode (s : String) : Option (List Nat) :=
  hexDecodeChars s.data

/-- Embeds `unhex` (util.go, not under src/): hex decoding that ignores the error;
modelled as the empty byte string on invalid input (the claims never depend
on the bytes produced from invalid hex). -/
def unhex (s : String) : List Nat :=
  (hexDecode s).getD []

/-- Go `strings.Replace(s, "\n", "\r\n", -1)` at the byte level (message.go
Verify, store.go:627): EVERY 0x0A byte becomes 0x0D 0x0A, including one
already preceded by 0x0D. -/
def lfToCrLfAll : List Nat → List Nat
  | [] => []
  | b :: rest => (if b = 10 then [13, 10] else [b]) ++ lfToCrLfAll rest

/-- Replacement of every LONE 0x0A (one not immediately preceded by 0x0D)
by 0x0D 0x0A — the canonicalization as the spec and the claim word it, to
be compared with `lfToCrLfAll`. -/
def loneLfToCrLf : Option Nat → List Nat → List Nat
  | _, [] => []
  | prev, b :: rest =>
    if b = 10 ∧ prev ≠ some 13 then 13 :: 10 :: loneLfToCrLf (some b) rest
    else b :: loneLfToCrLf (some b) rest

/-- Go `buff[:len(buff)-2]`: trim the trailing two bytes (the Go source would
panic on fewer than two bytes; the embedding totalizes to the empty list,
which the claims never exercise). -/
def dropLast2 (l : List Nat) : List Nat :=
  l.take (l.length - 2)

/-- The bytes the source hashes for a header-based signature
(message.go Verify): all-LF canonicalization then trailing trim. -/
def codeSignedInput (signedRegion : List Nat) : List Nat :=
  dropLast2 (lfToCrLfAll signedRegion)

/-- The bytes the claim says are hashed: lone-LF canonicalization then
trailing trim.  Stated from the spec sentence, to be compared with
`codeSignedInput`. -/
def specSignedInput (signedRegion : List Nat) : List Nat :=
  dropLast2 (loneLfToCrLf none signedRegion)

/-- The two cryptographic primitives consumed by `NNTPMessage.Verify`:
`sha512` hashing and `nacl.CryptoVerify` (`crypto_sign_open` of a signed
message against a pubkey).  Both live outside src/ (crypto library
bindings), so the embedding is parametric in them. -/
structure CryptoEnv where
  sha512 : List Nat → List Nat
  cryptoVerify : List Nat → List Nat → Bool

/-- The fields of the message.go `NNTPMessage` struct read by `Verify`:
`Signature` and `Key` are hex strings, `Signed` is the signed byte region. -/
structure NNTPMessage where
  messageID : String
  signature : String
  key : String
  signedRegion : List Nat
deriving DecidableEq

/-- Embeds `NNTPMessage.Verify` (store.go:623-658 / message.go): when `Signature`,
`Key` and `Signed` are all non-empty, replace every LF by CRLF, trim the
trailing two bytes, SHA-512 the result, hex-decode signature and key
(returning false on malformed hex), and `crypto_sign_open`-verify the
signature bytes prefixed to the hash; otherwise return true without any
cryptographic check. -/
def NNTPMessage.Verify (env : CryptoEnv) (m : NNTPMessage) : Bool :=
  if m.signature.length > 0 && m.key.length > 0 && m.signedRegion.length > 0 then
    let buff := dropLast2 (lfToCrLfAll m.signedRegion)
    let msgHash := env.sha512 buff
    match hexDecode m.signature with
    | none => false
    | some sigBytes =>
      match hexDecode m.key with
      | none => false
      | some pkBytes => env.cryptoVerify (sigBytes ++ msgHash) pkBytes
  else true

/-- The verification the claim describes for a header-based signature:
SHA-512 over the lone-LF-canonicalized, trailing-trimmed `Signed` region,
checked in the `crypto_sign_open` form with the signature bytes prefixing
the hash.  Stated from the spec sentences, to be compared with
`NNTPMessage.Verify`. -/
def specVerify (env : CryptoEnv) (m : NNTPMessage) : Bool :=
  match hexDecode m.signature, hexDecode m.key with
  | some sigBytes, some pkBytes =>
    env.cryptoVerify (sigBytes ++ env.sha512 (specSignedInput m.signedRegion)) pkBytes
  | _, _ => false

/-- A `textproto.MIMEHeader`: header name → values. -/
abbrev Headers := List (String × List String)

/-- Embeds `ArticleHeaders.Get(name, default)` (article.go, not under src/;
modelled from its uses in store.go): the first value of the header, or the
default when absent or empty. -/
def hdrGet (h : Headers) (name dflt : String) : String :=
  match h.find? (fun p => decide (p.1 = name)) with
  | some (_, v :: _) => v
  | some (_, []) => dflt
  | none => dflt

/-- Space or horizontal tab, the whitespace `mime.ParseMediaType` strips. -/
def isSpaceChar (c : Char) : Bool :=
  c = ' ' || c = '\t'

/-- Split a character list on a separator character. -/
def splitChars (sep : Char) : List Char → List (List Char)
  | [] => [[]]
  | c :: rest =>
    match splitChars sep rest with
    | [] => [[c]]
    | h :: t => if c = sep then [] :: h :: t else (c :: h) :: t

/-- Trim leading and trailing whitespace from a character list. -/
def trimChars (l : List Char) : List Char :=
  ((l.dropWhile isSpaceChar).reverse.dropWhile isSpaceChar).reverse

/-- ASCII lowercasing of one character. -/
def lowerChar (c : Char) : Char :=
  if 'A' ≤ c ∧ c ≤ 'Z' then Char.ofNat (c.toNat + 32) else c

/-- Strip one pair of surrounding double quotes, as `mime.ParseMediaType`
does for quoted parameter values. -/
def stripQuotesChars (l : List Char) : List Char :=
  if l.head? = some '\x22' ∧ l.getLast? = some '\x22' ∧ 2 ≤ l.length then
    (l.drop 1).dropLast
  else l

/-- Simplified model of Go `mime.ParseMediaType` (standard library): the
media type is the segment before the first `;`, trimmed and lowercased
(empty → error), and each later `key=value` segment yields a parameter with
lowercased key and unquoted value. -/
def parseMediaType (v : String) : Except String (String × List (String × String)) :=
  match splitChars ';' v.data with
  | [] => Except.error "mime: no media type"
  | t :: ps =>
    let mt := (trimChars t).map lowerChar
    if mt = [] then Except.error "mime: no media type"
    else
      Except.ok (String.mk mt, ps.filterMap (fun p =>
        match splitChars '=' (trimChars p) with
        | [k, val] =>
          some (String.mk ((trimChars k).map lowerChar),
            String.mk (stripQuotesChars val))
        | _ => none))

/-- The structured article produced by `read_message_body` as far as the
claims observe it: the header block and the text body bytes. -/
structure ParsedArticle where
  headers : Headers
  message : List Nat
deriving DecidableEq

/-- Collaborators of `read_message_body` that live outside src/ and whose
internals no claim depends on: `sha512` hashing, `nacl.CryptoVerifyFucky`
(hash, signature bytes, pubkey bytes), `readMIMEHeader` (header block parse
returning the headers and the remaining bytes), and the whole multipart
part loop of store.go:438-475 (Go `mime/multipart` plus
`readAttachmentFromMimePartAndStore`), abstracted as one function of the
headers, boundary and body. -/
structure ParseEnv where
  sha512 : List Nat → List Nat
  verifyFucky : List Nat → List Nat → List Nat → Bool
  readMIMEHeader : List Nat → Except String (Headers × List Nat)
  readMultipart : Headers → String → List Nat → Except String ParsedArticle

/-- Embeds `read_message_body` (store.go:423-547).  The body is a byte list (the
source's reader loop reads it to EOF); the tee writer and the
`discardAttachmentBody` flag only duplicate bytes to the file-store sink and
are not part of the index-visible result.  The recursion over signed
envelopes is fuelled; the source recurses until an unsigned inner message. -/
def read_message_body (env : ParseEnv) :
    Nat → Headers → List Nat → Except String ParsedArticle
  | 0, _, _ => Except.error "nested envelopes exhausted"
  | fuel + 1, hdr, body =>
    let contentType := hdrGet hdr "Content-Type" "text/plain"
    match parseMediaType contentType with
    | Except.error e => Except.error e
    | Except.ok (mediaType, params) =>
      match params.find? (fun p => decide (p.1 = "boundary")) with
      | some (_, boundary) => env.readMultipart hdr boundary body
      | none =>
        if mediaType = "message/rfc822" then
          let sig := hdrGet hdr "X-Signature-Ed25519-Sha512" ""
          let pk := hdrGet hdr "X-Pubkey-Ed25519" ""
          if pk = "" || sig = "" then Except.error "invalid headers"
          else
            let pkBytes := unhex pk
            let sigBytes := unhex sig
            let hash := env.sha512 body
            if env.verifyFucky hash sigBytes pkBytes then
              match env.readMIMEHeader body with
              | Except.error e => Except.error e
              | Except.ok (innerHdr, rest) => read_message_body env fuel innerHdr rest
            else Except.error "invalid signature"
        else Except.ok { headers := hdr, message := body }

/-- Embeds `articleStore.ProcessMessageBody` (store.go:399-406): parse the body
and, only on success, register the parsed article in the index
(`RegisterPost` → `RedisDB.RegisterArticle`).  `toMsg` abstracts the
`nntpArticle` accessor methods (article.go, not under src/) that turn the
parsed article into the interface value the index consumes. -/
def ProcessMessageBody (env : ParseEnv) (toMsg : ParsedArticle → ArticleMsg)
    (fuel : Nat) (db : DBState) (nowG now : Int) (hdr : Headers)
    (body : List Nat) : DBState × Except String Unit :=
  match read_message_body env fuel hdr body with
  | Except.error e => (db, Except.error e)
  | Except.ok nntp => (RegisterArticle db nowG now (toMsg nntp), Except.ok ())

/-! ### Concrete sample inputs used by counterexamples and witnesses -/

/-- The plain-text article of spec scenario 1: `Message-ID: <abc@x>`,
`Newsgroups: overchan.test`, `Date` giving posted time 1136239445. -/
def mPlain : ArticleMsg :=
  { messageID := "<abc@x>", newsgroup := "overchan.test", reference := ""
    name := "anon", subject := "hello", path := "p", posted := 1136239445
    message := "hi", addr := "", op := true, sage := false
    headers := [], attachments := [] }

/-- An OP article rooting a thread, used to exercise reply registration. -/
def mRoot : ArticleMsg :=
  { messageID := "<root@x>", newsgroup := "overchan.test", reference := ""
    name := "", subject := "op", path := "p", posted := 100
    message := "", addr := "", op := true, sage := false
    headers := [], attachments := [] }

/-- A non-sage reply to `mRoot`. -/
def mReply : ArticleMsg :=
  { messageID := "<reply@x>", newsgroup := "overchan.test", reference := "<root@x>"
    name := "", subject := "re: op", path := "p", posted := 200
    message := "", addr := "", op := false, sage := false
    headers := [], attachments := [] }

/-- A shared attachment carried by the two articles of the dedup scenario. -/
def attShared : AttachmentInfo :=
  { hashHex := "h64", filename := "pic.png", filepath := "h64.png" }

/-- First article referencing the shared attachment. -/
def msgA : ArticleMsg :=
  { messageID := "<a@x>", newsgroup := "overchan.test", reference := ""
    name := "", subject := "", path := "", posted := 100
    message := "", addr := "", op := true, sage := false
    headers := [], attachments := [attShared] }

/-- Second article referencing the shared attachment. -/
def msgB : ArticleMsg :=
  { messageID := "<b@x>", newsgroup := "overchan.test", reference := ""
    name := "", subject := "", path := "", posted := 200
    message := "", addr := "", op := true, sage := false
    headers := [], attachments := [attShared] }

/-- System state after ingesting `msgA` and `msgB`: the index holds both and
the attachment directory holds the single deduplicated blob file. -/
def sysAB : SysState :=
  { db := RegisterArticle (RegisterArticle emptyDB 1 2 msgA) 3 4 msgB
    disk := ["h64.png"] }

/-- A database whose range-ban keyring holds the range [05,06] (endpoint
"06") and the range [01,09] (endpoint "09"). -/
def sRange : DBState :=
  { emptyDB with
    ipRangeBan := ["06", "09"]
    ipRangeStart := fun e =>
      if e = "06" then some "05" else if e = "09" then some "01" else none }

/-- A crypto environment that records what `Verify` feeds to
`crypto_sign_open`: the hash is the identity and verification succeeds
exactly on the signed message the source builds for `mCrLf`. -/
def envProbe : CryptoEnv :=
  { sha512 := fun l => l
    cryptoVerify := fun smsg _ => decide (smsg = [170, 13]) }

/-- A signed article whose `Signed` region is the two bytes CR LF: the
source's canonicalization turns it into CR CR LF, a lone-LF canonicalization
leaves it unchanged. -/
def mCrLf : NNTPMessage :=
  { messageID := "<sig@x>", signature := "aa", key := "bb", signedRegion := [13, 10] }

/-- A signed article with a single LF as `Signed` region, for the witness of
the amended header-signature claim. -/
def mLf : NNTPMessage :=
  { messageID := "<sig2@x>", signature := "ff", key := "00", signedRegion := [10] }

/-- An article with an empty `Signature`, for the trivial-verification
witness. -/
def mUnsigned : NNTPMessage :=
  { messageID := "<u@x>", signature := "", key := "bb", signedRegion := [10] }

/-- Crypto environment for the witness of the amended header-signature
claim: constant hash, verification accepting everything. -/
def envConst : CryptoEnv :=
  { sha512 := fun _ => [1], cryptoVerify := fun _ _ => true }

/-- Parse environment for the invalid-signature witness: verification always
fails, the other collaborators are inert. -/
def envFail : ParseEnv :=
  { sha512 := fun _ => []
    verifyFucky := fun _ _ _ => false
    readMIMEHeader := fun _ => Except.error "unused"
    readMultipart := fun _ _ _ => Except.error "unused" }

/-- An inert article-to-interface conversion for the invalid-signature
witness (never reached on the error path). -/
def toMsgConst : ParsedArticle → ArticleMsg :=
  fun _ => mPlain

/-- The header block of a signed envelope: `Content-Type: message/rfc822`
with pubkey and signature headers. -/
def hdrEnvelope : Headers :=
  [("Content-Type", ["message/rfc822"]),
   ("X-Pubkey-Ed25519", ["aa"]),
   ("X-Signature-Ed25519-Sha512", ["bb"])]

/-! ### Sorted-set lemmas -/

theorem zscore_cons (a : String) (b : Int) (z : ZSet) (m : String) :
    zscore ((a, b) :: z) m = if a = m then some b else zscore z m := by
  by_cases h : a = m <;> simp [zscore, List.find?_cons, h]

theorem zmem_cons (a : String) (b : Int) (z : ZSet) (m : String) :
    zmem ((a, b) :: z) m = if a = m then true else zmem z m := by
  by_cases h : a = m <;> simp [zmem, zscore_cons, h]

theorem zscore_append (z1 z2 : ZSet) (m : String) :
    zscore (z1 ++ z2) m = if zmem z1 m then zscore z1 m else zscore z2 m := by
  induction z1 with
  | nil => simp [zscore, zmem]
  | cons p t ih =>
    obtain ⟨a, b⟩ := p
    by_cases h : a = m <;>
      simp [zscore_cons, zmem_cons, h, ih]

theorem zscore_zaddNX_self (z : ZSet) (m : String) (sc : Int)
    (h : zmem z m = false) : zscore (zaddNX z m sc) m = some sc := by
  simp only [zaddNX, h, if_neg Bool.false_ne_true, zscore_append]
  simp [h, zscore_cons]

theorem zmem_zaddNX_self (z : ZSet) (m : String) (sc : Int) :
    zmem (zaddNX z m sc) m = true := by
  cases h : zmem z m with
  | true => simp [zaddNX, h]
  | false => simp [zmem, zscore_zaddNX_self z m sc h]

theorem zmem_zaddNX_mono (z : ZSet) (m k : String) (sc : Int)
    (h : zmem z k = true) : zmem (zaddNX z m sc) k = true := by
  cases hm : zmem z m with
  | true => simpa [zaddNX, hm]
  | false =>
    have h2 : (zscore z k).isSome = true := by simpa [zmem] using h
    have hm2 : (zscore z m).isSome = false := by simpa [zmem] using hm
    simp [zaddNX, hm, hm2, zmem, zscore_append, h, h2]

theorem zscore_map_setXX_self (z : ZSet) (m : String) (sc : Int)
    (h : zmem z m = true) :
    zscore (z.map (fun p => if p.1 = m then (m, sc) else p)) m = some sc := by
  induction z with
  | nil => simp [zmem, zscore] at h
  | cons p t ih =>
    obtain ⟨a, b⟩ := p
    by_cases ha : a = m
    · simp [ha, zscore_cons]
    · simp only [List.map_cons, if_neg ha]
      rw [zscore_cons, if_neg ha]
      rw [zmem_cons, if_neg ha] at h
      exact ih h

theorem zscore_map_setXX_ne (z : ZSet) (m : String) (sc : Int) (k : String)
    (h : k ≠ m) :
    zscore (z.map (fun p => if p.1 = m then (m, sc) else p)) k = zscore z k := by
  induction z with
  | nil => simp [zscore]
  | cons p t ih =>
    obtain ⟨a, b⟩ := p
    by_cases ha : a = m
    · subst ha
      simp only [List.map_cons, if_pos rfl]
      rw [zscore_cons, zscore_cons]
      rw [if_neg (fun hh => h hh.symm), if_neg (fun hh => h hh.symm)]
      exact ih
    · simp only [List.map_cons, if_neg ha]
      rw [zscore_cons, zscore_cons]
      by_cases hak : a = k
      · simp [hak]
      · rw [if_neg hak, if_neg hak]
        exact ih

theorem zscore_zaddXX_self (z : ZSet) (m : String) (sc : Int)
    (h : zmem z m = true) : zscore (zaddXX z m sc) m = some sc := by
  simp only [zaddXX, h, if_pos]
  exact zscore_map_setXX_self z m sc h

theorem zscore_zaddXX_ne (z : ZSet) (m : String) (sc : Int) (k : String)
    (h : k ≠ m) : zscore (zaddXX z m sc) k = zscore z k := by
  cases hm : zmem z m with
  | true =>
    simp only [zaddXX, hm, if_pos]
    exact zscore_map_setXX_ne z m sc k h
  | false => simp [zaddXX, hm]

theorem zmem_zaddXX (z : ZSet) (m : String) (sc : Int) (k : String) :
    zmem (zaddXX z m sc) k = zmem z k := by
  by_cases hk : k = m
  · subst hk
    cases hm : zmem z k with
    | true => simp [zmem, zscore_zaddXX_self z k sc hm]
    | false => simp [zaddXX, hm]
  · simp [zmem, zscore_zaddXX_ne z m sc k hk]

/-! ### The effect of `RegisterArticle` -/

theorem registerArticle_of_hasArticle (s : DBState) (nowG now : Int)
    (m : ArticleMsg) (h : HasArticle s m.messageID = true) :
    RegisterArticle s nowG now m =
      if HasNewsgroup s m.newsgroup then s
      else RegisterNewsgroup s nowG m.newsgroup := by
  have h1 : HasArticle (if HasNewsgroup s m.newsgroup then s
      else RegisterNewsgroup s nowG m.newsgroup) m.messageID = true := by
    by_cases hg : HasNewsgroup s m.newsgroup <;>
      simpa [hg, HasArticle, RegisterNewsgroup] using h
  unfold RegisterArticle
  simp only [h1, if_true]

theorem registerArticle_eq (s : DBState) (nowG now : Int) (m : ArticleMsg)
    (h : HasArticle s m.messageID = false) :
    RegisterArticle s nowG now m =
      { s with
        groupPosttime := zaddXX
          (if HasNewsgroup s m.newsgroup then s.groupPosttime
           else zaddNX s.groupPosttime m.newsgroup nowG) m.newsgroup now
        groupArticlePosttime := upd s.groupArticlePosttime m.newsgroup
          (zaddNX (s.groupArticlePosttime m.newsgroup) m.messageID now)
        articles := upd s.articles m.messageID
          (some ⟨m.messageID, HashMessageID m.messageID, m.newsgroup, now,
                 m.reference⟩)
        hashMsgid := upd s.hashMsgid (HashMessageID m.messageID)
          (some m.messageID)
        articlePosts := upd s.articlePosts m.messageID
          (some ⟨m.newsgroup, m.messageID, m.reference, m.name, m.subject,
                 m.path, m.posted, m.message, m.addr⟩)
        articleWKR :=
          if m.newsgroup ≠ "ctl" then zaddNX s.articleWKR m.messageID now
          else s.articleWKR
        groupThreadPosttime :=
          if m.op then
            upd s.groupThreadPosttime m.newsgroup
              (zaddNX (s.groupThreadPosttime m.newsgroup) m.messageID m.posted)
          else
            upd s.groupThreadPosttime m.newsgroup
              (zaddXX (s.groupThreadPosttime m.newsgroup) m.reference m.posted)
        groupThreadBumptime :=
          if m.op then
            upd s.groupThreadBumptime m.newsgroup
              (zaddNX (s.groupThreadBumptime m.newsgroup) m.messageID m.posted)
          else if !m.sage then
            upd s.groupThreadBumptime m.newsgroup
              (zaddXX (s.groupThreadBumptime m.newsgroup) m.reference m.posted)
          else s.groupThreadBumptime
        threadBumptimeAll :=
          if m.op then
            (if m.newsgroup ≠ "ctl" then
              zaddNX s.threadBumptimeAll m.messageID m.posted
             else s.threadBumptimeAll)
          else if !m.sage then
            zaddXX s.threadBumptimeAll m.reference m.posted
          else s.threadBumptimeAll
        threadPosts :=
          if m.op then s.threadPosts
          else
            upd s.threadPosts m.reference
              (zaddNX (s.threadPosts m.reference) m.messageID m.posted)
        headerKR :=
          (addHeaders m.messageID s.headerKR s.msgidHeaderKR m.headers).1
        msgidHeaderKR :=
          (addHeaders m.messageID s.headerKR s.msgidHeaderKR m.headers).2
        attachmentArticles := (addAttachments m.messageID s.attachmentArticles
          s.articleAttachments s.attachmentRecords m.attachments).1
        articleAttachments := (addAttachments m.messageID s.attachmentArticles
          s.articleAttachments s.attachmentRecords m.attachments).2.1
        attachmentRecords := (addAttachments m.messageID s.attachmentArticles
          s.articleAttachments s.attachmentRecords m.attachments).2.2 } := by
  have h1 : HasArticle (if HasNewsgroup s m.newsgroup then s
      else RegisterNewsgroup s nowG m.newsgroup) m.messageID = false := by
    by_cases hg : HasNewsgroup s m.newsgroup <;>
      simpa [hg, HasArticle, RegisterNewsgroup] using h
  unfold RegisterArticle
  simp only [h1, Bool.false_eq_true, if_false]
  by_cases hg : HasNewsgroup s m.newsgroup <;>
    by_cases hop : m.op <;>
      by_cases hsage : m.sage <;>
        by_cases hctl : m.newsgroup = "ctl" <;>
          simp_all [RegisterNewsgroup]

theorem hasNewsgroup_registerArticle (s : DBState) (nowG now : Int)
    (m : ArticleMsg) :
    HasNewsgroup (RegisterArticle s nowG now m) m.newsgroup = true := by
  cases ha : HasArticle s m.messageID with
  | true =>
    rw [registerArticle_of_hasArticle s nowG now m ha]
    cases hg : zmem s.groupPosttime m.newsgroup with
    | true => simp [HasNewsgroup, hg]
    | false => simp [HasNewsgroup, RegisterNewsgroup, hg, zmem_zaddNX_self]
  | false =>
    rw [registerArticle_eq s nowG now m ha]
    simp only [HasNewsgroup, zmem_zaddXX]
    by_cases hg : zmem s.groupPosttime m.newsgroup = true
    · simp [hg]
    · simp [hg, zmem_zaddNX_self]

theorem hasArticle_registerArticle (s : DBState) (nowG now : Int)
    (m : ArticleMsg) :
    HasArticle (RegisterArticle s nowG now m) m.messageID = true := by
  cases ha : HasArticle s m.messageID with
  | true =>
    rw [registerArticle_of_hasArticle s nowG now m ha]
    by_cases hg : HasNewsgroup s m.newsgroup <;>
      simpa [hg, RegisterNewsgroup, HasArticle] using ha
  | false =>
    rw [registerArticle_eq s nowG now m ha]
    simp [HasArticle, upd]

/-- C9: registering an article whose message-id is already present is a
no-op, so registering the same article twice (at any pair of clock
readings) leaves exactly the state of registering it once. -/
theorem registerArticle_idempotent (s : DBState) (g1 n1 g2 n2 : Int)
    (m : ArticleMsg) :
    RegisterArticle (RegisterArticle s g1 n1 m) g2 n2 m =
      RegisterArticle s g1 n1 m := by
  have hg := hasNewsgroup_registerArticle s g1 n1 m
  have ha := hasArticle_registerArticle s g1 n1 m
  rw [registerArticle_of_hasArticle _ g2 n2 m ha, if_pos hg]

/-- Claim C1 counterexample: registering the scenario-1 article (Date →
posted 1136239445) at wall-clock 7 scores its `group_article_posttime`
entry 7, the registration time — not the posted time from its headers. -/
theorem C1_counterexample :
    zscore ((RegisterArticle emptyDB 5 7 mPlain).groupArticlePosttime
        "overchan.test") "<abc@x>" = some 7 ∧
    zscore ((RegisterArticle emptyDB 5 7 mPlain).groupArticlePosttime
        "overchan.test") "<abc@x>" ≠ some mPlain.posted := by
  decide

/-- C1 (amended): the `group_article_posttime[group]` entry of a freshly
registered article is scored by the wall-clock registration time `now`
(redis.go:702), regardless of the article's posted time. -/
theorem registerArticle_posttime_is_now (s : DBState) (nowG now : Int)
    (m : ArticleMsg)
    (h1 : HasArticle s m.messageID = false)
    (h2 : zmem (s.groupArticlePosttime m.newsgroup) m.messageID = false) :
    zscore ((RegisterArticle s nowG now m).groupArticlePosttime m.newsgroup)
      m.messageID = some now := by
  rw [registerArticle_eq s nowG now m h1]
  simp [upd, zscore_zaddNX_self _ _ _ h2]

/-- Witness for `registerArticle_posttime_is_now` at the scenario-1
article registered into the empty index at wall-clock 9. -/
theorem registerArticle_posttime_is_now_witness :
    HasArticle emptyDB "<abc@x>" = false ∧
    zmem (emptyDB.groupArticlePosttime "overchan.test") "<abc@x>" = false ∧
    zscore ((RegisterArticle emptyDB 1 9 mPlain).groupArticlePosttime
        "overchan.test") "<abc@x>" = some 9 :=
  ⟨by decide, by decide,
    registerArticle_posttime_is_now emptyDB 1 9 mPlain (by decide) (by decide)⟩

/-- Claim C2 counterexample: after registering one article the group's
article keyring has cardinality 1, but `GetLastAndFirstForGroup` reports
`last` = 2, not the cardinality. -/
theorem C2_counterexample :
    GetLastAndFirstForGroup (RegisterArticle emptyDB 5 7 mPlain)
        "overchan.test" ≠
      (zcard ((RegisterArticle emptyDB 5 7 mPlain).groupArticlePosttime
        "overchan.test"), 1) := by
  decide

/-- C2 (amended): `first` is always 1 and `last` is 0 for an empty group
and the cardinality of `group_article_posttime[group]` PLUS ONE otherwise
(the `last += 1` at redis.go:895). -/
theorem getLastAndFirstForGroup_eq (s : DBState) (group : String) :
    GetLastAndFirstForGroup s group =
      (if zcard (s.groupArticlePosttime group) = 0 then 0
       else zcard (s.groupArticlePosttime group) + 1, 1) := by
  by_cases h : zcard (s.groupArticlePosttime group) = 0 <;>
    simp [GetLastAndFirstForGroup, h]

/-- C7: `GetFilename` returns the empty path on any string failing the
message-id validity check; the embedding is pure, mirroring that the source
performs no filesystem access in this function. -/
theorem getFilename_invalid (dir msgid : String)
    (h : ValidMessageID msgid = false) : GetFilename dir msgid = "" := by
  simp [GetFilename, h]

/-- Witness for `getFilename_invalid` at the invalid message-id `nope`. -/
theorem getFilename_invalid_witness :
    ValidMessageID "nope" = false ∧ GetFilename "store" "nope" = "" :=
  ⟨by decide, getFilename_invalid "store" "nope" (by decide)⟩

/-- C10: when the signature, the key or the signed region is empty,
`Verify` returns true for EVERY crypto environment — no cryptographic
check is consulted. -/
theorem verify_unsigned (env : CryptoEnv) (m : NNTPMessage)
    (h : m.signature = "" ∨ m.key = "" ∨ m.signedRegion = []) :
    NNTPMessage.Verify env m = true := by
  rcases h with h | h | h <;> simp [NNTPMessage.Verify, h]

/-- Witness for `verify_unsigned`: an article with an empty signature
verifies trivially. -/
theorem verify_unsigned_witness :
    (mUnsigned.signature = "" ∨ mUnsigned.key = "" ∨
      mUnsigned.signedRegion = []) ∧
    NNTPMessage.Verify envProbe mUnsigned = true :=
  ⟨Or.inl rfl, verify_unsigned envProbe mUnsigned (Or.inl rfl)⟩

/-- Claim C8 counterexample: on a `Signed` region consisting of CR LF the
source's canonicalization (replace EVERY LF) hashes CR — a lone-LF
canonicalization would hash the empty string — so `Verify` disagrees with
the claimed verification at this input. -/
theorem C8_counterexample :
    NNTPMessage.Verify envProbe mCrLf = true ∧
    specVerify envProbe mCrLf = false := by
  decide

/-- C8 (amended): for a header-based signature with non-empty fields and
well-formed hex, `Verify` hashes the `Signed` region with EVERY LF
(including one already preceded by CR) replaced by CR LF and the trailing
two bytes trimmed, and checks the signature in the `crypto_sign_open` form
with the signature bytes prefixing the hash. -/
theorem length_pos_of_ne_empty (s : String) (h : s ≠ "") : 0 < s.length := by
  cases s with
  | mk data =>
    cases data with
    | nil => exact absurd rfl h
    | cons c cs => simp [String.length]

theorem verify_header_signature (env : CryptoEnv) (m : NNTPMessage)
    (sb kb : List Nat)
    (h1 : m.signature ≠ "") (h2 : m.key ≠ "") (h3 : m.signedRegion ≠ [])
    (hs : hexDecode m.signature = some sb) (hk : hexDecode m.key = some kb) :
    NNTPMessage.Verify env m =
      env.cryptoVerify (sb ++ env.sha512 (codeSignedInput m.signedRegion)) kb := by
  have l1 : 0 < m.signature.length := length_pos_of_ne_empty _ h1
  have l2 : 0 < m.key.length := length_pos_of_ne_empty _ h2
  have l3 : 0 < m.signedRegion.length := List.length_pos.mpr h3
  unfold NNTPMessage.Verify codeSignedInput
  rw [hs, hk]
  simp [l1, l2, l3]

/-- C4: registering a reply (with the article fresh and the thread root
present in the thread orderings): a sage reply leaves
`group_thread_bumptime[group]` and `thread_bumptime_all` untouched; a
non-sage reply sets both to the reply's posted time; in both cases
`group_thread_posttime[group]` for the root is set to the posted time and
the reply enters `thread_posts[reference]` scored by its posted time. -/
theorem registerArticle_reply (s : DBState) (nowG now : Int) (m : ArticleMsg)
    (hop : m.op = false)
    (ha : HasArticle s m.messageID = false)
    (hpt : zmem (s.groupThreadPosttime m.newsgroup) m.reference = true)
    (hbt : zmem (s.groupThreadBumptime m.newsgroup) m.reference = true)
    (hba : zmem s.threadBumptimeAll m.reference = true)
    (htp : zmem (s.threadPosts m.reference) m.messageID = false) :
    (m.sage = true →
      (RegisterArticle s nowG now m).groupThreadBumptime m.newsgroup =
          s.groupThreadBumptime m.newsgroup ∧
      (RegisterArticle s nowG now m).threadBumptimeAll = s.threadBumptimeAll) ∧
    (m.sage = false →
      zscore ((RegisterArticle s nowG now m).groupThreadBumptime m.newsgroup)
          m.reference = some m.posted ∧
      zscore ((RegisterArticle s nowG now m).threadBumptimeAll)
          m.reference = some m.posted) ∧
    zscore ((RegisterArticle s nowG now m).groupThreadPosttime m.newsgroup)
        m.reference = some m.posted ∧
    zscore ((RegisterArticle s nowG now m).threadPosts m.reference)
        m.messageID = some m.posted := by
  rw [registerArticle_eq s nowG now m ha]
  refine ⟨?_, ?_, ?_, ?_⟩
  · intro hs
    simp [hop, hs, upd]
  · intro hs
    simp [hop, hs, upd, zscore_zaddXX_self _ _ _ hbt,
      zscore_zaddXX_self _ _ _ hba]
  · simp [hop, upd, zscore_zaddXX_self _ _ _ hpt]
  · simp [hop, upd, zscore_zaddNX_self _ _ _ htp]

/-- Witness for `registerArticle_reply`: register the OP `mRoot` into the
empty index, then the non-sage reply `mReply`; the thread orderings for the
root all move to the reply's posted time 200. -/
theorem registerArticle_reply_witness :
    mReply.op = false ∧
    HasArticle (RegisterArticle emptyDB 1 2 mRoot) "<reply@x>" = false ∧
    zmem ((RegisterArticle emptyDB 1 2 mRoot).groupThreadPosttime
      "overchan.test") "<root@x>" = true ∧
    zscore ((RegisterArticle (RegisterArticle emptyDB 1 2 mRoot) 3 4
        mReply).groupThreadPosttime "overchan.test") "<root@x>" = some 200 ∧
    zscore ((RegisterArticle (RegisterArticle emptyDB 1 2 mRoot) 3 4
        mReply).groupThreadBumptime "overchan.test") "<root@x>" = some 200 ∧
    zscore ((RegisterArticle (RegisterArticle emptyDB 1 2 mRoot) 3 4
        mReply).threadPosts "<root@x>") "<reply@x>" = some 200 :=
  ⟨rfl, by decide, by decide,
   (registerArticle_reply _ 3 4 mReply rfl (by decide) (by decide)
      (by decide) (by decide) (by decide)).2.2.1,
   ((registerArticle_reply _ 3 4 mReply rfl (by decide) (by decide)
      (by decide) (by decide) (by decide)).2.1 rfl).1,
   (registerArticle_reply _ 3 4 mReply rfl (by decide) (by decide)
      (by decide) (by decide) (by decide)).2.2.2⟩

/-- C3: deleting the first of two articles sharing an attachment removes
its reverse link and keeps the attachment record; deleting the second
removes the record as well — but the attachment directory is untouched in
both cases (redis.go:518 is `TODO delete files from disk`), so the blob
file survives the deletion of its last referencing article, contradicting
the claimed on-disk removal. -/
theorem deleteArticle_keeps_disk_files :
    (DeleteArticleSys sysAB "<a@x>").db.attachmentArticles "h64" = ["<b@x>"] ∧
    ((DeleteArticleSys sysAB "<a@x>").db.attachmentRecords "h64").isSome
      = true ∧
    (DeleteArticleSys (DeleteArticleSys sysAB "<a@x>")
      "<b@x>").db.attachmentArticles "h64" = [] ∧
    (DeleteArticleSys (DeleteArticleSys sysAB "<a@x>")
      "<b@x>").db.attachmentRecords "h64" = none ∧
    (DeleteArticleSys (DeleteArticleSys sysAB "<a@x>") "<b@x>").disk
      = ["h64.png"] := by
  decide

/-! ### Lexicographic order and least-element lemmas for the ban keyring -/

theorem charsLe_refl (l : List Char) : charsLe l l = true := by
  induction l with
  | nil => rfl
  | cons a t ih => simp [charsLe, ih]

theorem charsLe_total (a b : List Char) :
    charsLe a b = true ∨ charsLe b a = true := by
  induction a generalizing b with
  | nil => exact Or.inl rfl
  | cons x xs ih =>
    cases b with
    | nil => exact Or.inr rfl
    | cons y ys =>
      rcases Nat.lt_trichotomy x.toNat y.toNat with h | h | h
      · exact Or.inl (by simp [charsLe, h])
      · rcases ih ys with h2 | h2
        · exact Or.inl (by simp [charsLe, h, h2])
        · exact Or.inr (by simp [charsLe, h.symm, h2, Nat.lt_irrefl])
      · exact Or.inr (by simp [charsLe, h])

theorem charsLe_antisymm (a b : List Char) (h1 : charsLe a b = true)
    (h2 : charsLe b a = true) : a = b := by
  induction a generalizing b with
  | nil =>
    cases b with
    | nil => rfl
    | cons y ys => simp [charsLe] at h2
  | cons x xs ih =>
    cases b with
    | nil => simp [charsLe] at h1
    | cons y ys =>
      rcases Nat.lt_trichotomy x.toNat y.toNat with h | h | h
      · rw [charsLe, if_neg (Nat.lt_asymm h), if_neg (Nat.ne_of_gt h)] at h2
        cases h2
      · have hxy : x = y := Char.ext (UInt32.ext h)
        subst hxy
        rw [charsLe, if_neg (Nat.lt_irrefl _), if_pos rfl] at h1
        rw [charsLe, if_neg (Nat.lt_irrefl _), if_pos rfl] at h2
        rw [ih ys h1 h2]
      · rw [charsLe, if_neg (by omega : ¬ x.toNat < y.toNat),
           if_neg (by omega : ¬ x.toNat = y.toNat)] at h1
        cases h1

theorem charsLe_trans (a b c : List Char) (h1 : charsLe a b = true)
    (h2 : charsLe b c = true) : charsLe a c = true := by
  induction a generalizing b c with
  | nil => rfl
  | cons x xs ih =>
    cases b with
    | nil => simp [charsLe] at h1
    | cons y ys =>
      cases c with
      | nil => simp [charsLe] at h2
      | cons z zs =>
        rw [charsLe] at h1 h2 ⊢
        by_cases hxy : x.toNat < y.toNat
        · by_cases hyz : y.toNat < z.toNat
          · rw [if_pos (Nat.lt_trans hxy hyz)]
          · rw [if_neg hyz] at h2
            by_cases hyz2 : y.toNat = z.toNat
            · rw [if_pos (hyz2 ▸ hxy)]
            · rw [if_neg hyz2] at h2; cases h2
        · rw [if_neg hxy] at h1
          by_cases hxy2 : x.toNat = y.toNat
          · rw [if_pos hxy2] at h1
            by_cases hyz : y.toNat < z.toNat
            · rw [if_pos (hxy2 ▸ hyz)]
            · rw [if_neg hyz] at h2
              by_cases hyz2 : y.toNat = z.toNat
              · rw [if_pos hyz2] at h2
                rw [if_neg (by omega : ¬ x.toNat < z.toNat),
                   if_pos (by omega : x.toNat = z.toNat)]
                exact ih ys zs h1 h2
              · rw [if_neg hyz2] at h2; cases h2
          · rw [if_neg hxy2] at h1; cases h1

theorem strLe_refl (a : String) : strLe a a = true :=
  charsLe_refl a.data

theorem strLe_total (a b : String) : strLe a b = true ∨ strLe b a = true :=
  charsLe_total a.data b.data

theorem strLe_antisymm (a b : String) (h1 : strLe a b = true)
    (h2 : strLe b a = true) : a = b := by
  cases a with
  | mk da =>
    cases b with
    | mk db => exact congrArg String.mk (charsLe_antisymm da db h1 h2)

theorem strLe_trans (a b c : String) (h1 : strLe a b = true)
    (h2 : strLe b c = true) : strLe a c = true :=
  charsLe_trans a.data b.data c.data h1 h2

theorem listMin_eq_none (l : List String) : listMin l = none ↔ l = [] := by
  cases l with
  | nil => simp [listMin]
  | cons a t =>
    rw [listMin]
    cases listMin t <;> simp

theorem listMin_mem (l : List String) (a : String) (h : listMin l = some a) :
    a ∈ l := by
  induction l generalizing a with
  | nil => simp [listMin] at h
  | cons c t ih =>
    rw [listMin] at h
    cases ht : listMin t with
    | none =>
      rw [ht] at h
      simp only [Option.some.injEq] at h
      exact h ▸ List.mem_cons_self c t
    | some b =>
      rw [ht] at h
      simp only [Option.some.injEq] at h
      by_cases hcb : strLe c b = true
      · rw [if_pos hcb] at h
        exact h ▸ List.mem_cons_self c t
      · rw [if_neg hcb] at h
        exact h ▸ List.mem_cons_of_mem c (ih b ht)

theorem listMin_le (l : List String) (a : String) (h : listMin l = some a) :
    ∀ b ∈ l, strLe a b = true := by
  induction l generalizing a with
  | nil => simp [listMin] at h
  | cons c t ih =>
    rw [listMin] at h
    intro b hb
    cases ht : listMin t with
    | none =>
      have htn : t = [] := (listMin_eq_none t).mp ht
      subst htn
      rw [ht] at h
      simp only [Option.some.injEq] at h
      subst h
      simp only [List.mem_singleton] at hb
      subst hb
      exact strLe_refl _
    | some d =>
      rw [ht] at h
      simp only [Option.some.injEq] at h
      rcases List.mem_cons.mp hb with hbc | hbt
      · rw [hbc]
        by_cases hcd : strLe c d = true
        · rw [if_pos hcd] at h
          rw [← h]
          exact strLe_refl _
        · rw [if_neg hcd] at h
          rw [← h]
          rcases strLe_total c d with hc | hc
          · exact absurd hc hcd
          · exact hc
      · have hdb := ih d ht b hbt
        by_cases hcd : strLe c d = true
        · rw [if_pos hcd] at h
          rw [← h]
          exact strLe_trans _ _ _ hcd hdb
        · rw [if_neg hcd] at h
          rw [← h]
          exact hdb

theorem listMin_isSome (l : List String) (h : l ≠ []) :
    (listMin l).isSome = true := by
  cases l with
  | nil => exact absurd rfl h
  | cons a t =>
    rw [listMin]
    cases listMin t <;> simp

theorem zrangeByLexFirstGE_some (l : List String) (lo e : String) :
    zrangeByLexFirstGE l lo = some e ↔
      e ∈ l ∧ strLe lo e = true ∧
        ∀ b ∈ l, strLe lo b = true → strLe e b = true := by
  unfold zrangeByLexFirstGE
  constructor
  · intro h
    have hm := listMin_mem _ _ h
    have hle := listMin_le _ _ h
    rw [List.mem_filter] at hm
    exact ⟨hm.1, hm.2, fun b hb hlob =>
      hle b (List.mem_filter.mpr ⟨hb, hlob⟩)⟩
  · rintro ⟨he, hloe, hmin⟩
    have hne : e ∈ l.filter (fun x => strLe lo x) :=
      List.mem_filter.mpr ⟨he, hloe⟩
    obtain ⟨a, ha⟩ := Option.isSome_iff_exists.mp
      (listMin_isSome _ (List.ne_nil_of_mem hne))
    have ham := listMin_mem _ _ ha
    have hale := listMin_le _ _ ha
    rw [List.mem_filter] at ham
    rw [ha, strLe_antisymm a e (hale e hne) (hmin a ham.1 ham.2)]

theorem zrangeByLexFirstGE_none (l : List String) (lo : String) :
    zrangeByLexFirstGE l lo = none ↔ ∀ b ∈ l, strLe lo b = false := by
  unfold zrangeByLexFirstGE
  rw [listMin_eq_none, List.filter_eq_nil_iff]
  simp

/-- Claim C6 counterexample: with banned ranges [05,06] (endpoint `06`) and
[01,09] (endpoint `09`) in the keyring, the single address `03` is inside
the second range — the claim's SOME-endpoint condition holds — yet the code
inspects only the first endpoint ≥ `03`, namely `06`, whose start `05`
exceeds `03`, and reports not banned. -/
theorem C6_counterexample :
    CheckIPBanned sRange "03" "03" "03" = false ∧
    checkIPBannedClaim sRange "03" "03" "03" = true := by
  decide

/-- C6 (amended): the lookup reports banned iff the individual-ip key
exists, or the LEAST `ip_range_ban` endpoint at or above the query's max
endpoint exists and its stored start is ≤ the query's min endpoint. -/
theorem checkIPBanned_iff (s : DBState) (addr minEp maxEp : String) :
    CheckIPBanned s addr minEp maxEp = true ↔
      s.ipBan addr = true ∨
        ∃ e st, (e ∈ s.ipRangeBan ∧ strLe maxEp e = true ∧
            ∀ b ∈ s.ipRangeBan, strLe maxEp b = true → strLe e b = true) ∧
          s.ipRangeStart e = some st ∧ strLe st minEp = true := by
  by_cases hb : s.ipBan addr = true
  · simp [CheckIPBanned, hb]
  · cases hf : zrangeByLexFirstGE s.ipRangeBan maxEp with
    | none =>
      have hlhs : CheckIPBanned s addr minEp maxEp = false := by
        simp [CheckIPBanned, hb, hf]
      rw [hlhs]
      constructor
      · intro h; exact Bool.noConfusion h
      · rintro (h | ⟨e, st, ⟨he, hle, _⟩, _, _⟩)
        · exact absurd h hb
        · rw [zrangeByLexFirstGE_none] at hf
          rw [hf e he] at hle
          exact Bool.noConfusion hle
    | some rmax =>
      have hspec := (zrangeByLexFirstGE_some s.ipRangeBan maxEp rmax).mp hf
      cases hst : s.ipRangeStart rmax with
      | none =>
        have hlhs : CheckIPBanned s addr minEp maxEp = false := by
          simp [CheckIPBanned, hb, hf, hst]
        rw [hlhs]
        constructor
        · intro h; exact Bool.noConfusion h
        · rintro (h | ⟨e, st, hleast, hsome, hstle⟩)
          · exact absurd h hb
          · have he : e = rmax := strLe_antisymm e rmax
              (hleast.2.2 rmax hspec.1 hspec.2.1)
              (hspec.2.2 e hleast.1 hleast.2.1)
            rw [he, hst] at hsome
            exact Option.noConfusion hsome
      | some rmin =>
        have hlhs : CheckIPBanned s addr minEp maxEp = strLe rmin minEp := by
          simp [CheckIPBanned, hb, hf, hst]
        rw [hlhs]
        constructor
        · intro h
          exact Or.inr ⟨rmax, rmin, hspec, hst, h⟩
        · rintro (h | ⟨e, st, hleast, hsome, hstle⟩)
          · exact absurd h hb
          · have he : e = rmax := strLe_antisymm e rmax
              (hleast.2.2 rmax hspec.1 hspec.2.1)
              (hspec.2.2 e hleast.1 hleast.2.1)
            rw [he, hst] at hsome
            injection hsome with hsome2
            rw [← hsome2] at hstle
            exact hstle

/-- C5: when the top-level media type is `message/rfc822` with no boundary
parameter, the signature headers are present, and the detached verification
of the SHA-512 of the body fails, `ProcessMessageBody` returns the
invalid-signature error and leaves the index untouched (no registration). -/
theorem processMessageBody_invalid_signature (env : ParseEnv)
    (toMsg : ParsedArticle → ArticleMsg) (fuel : Nat) (db : DBState)
    (nowG now : Int) (hdr : Headers) (body : List Nat)
    (ps : List (String × String))
    (hct : parseMediaType (hdrGet hdr "Content-Type" "text/plain") =
      Except.ok ("message/rfc822", ps))
    (hbd : ps.find? (fun p => decide (p.1 = "boundary")) = none)
    (hsig : hdrGet hdr "X-Signature-Ed25519-Sha512" "" ≠ "")
    (hpk : hdrGet hdr "X-Pubkey-Ed25519" "" ≠ "")
    (hver : env.verifyFucky (env.sha512 body)
        (unhex (hdrGet hdr "X-Signature-Ed25519-Sha512" ""))
        (unhex (hdrGet hdr "X-Pubkey-Ed25519" "")) = false) :
    ProcessMessageBody env toMsg (fuel + 1) db nowG now hdr body =
      (db, Except.error "invalid signature") := by
  unfold ProcessMessageBody
  rw [read_message_body, hct]
  simp [hbd, hsig, hpk, hver]

/-- Witness for `processMessageBody_invalid_signature`: the envelope header
block with an always-failing verifier on a two-byte body. -/
theorem processMessageBody_invalid_signature_witness :
    hdrGet hdrEnvelope "X-Signature-Ed25519-Sha512" "" ≠ "" ∧
    ProcessMessageBody envFail toMsgConst 1 emptyDB 0 0 hdrEnvelope [7, 8] =
      (emptyDB, Except.error "invalid signature") :=
  ⟨by decide,
   processMessageBody_invalid_signature envFail toMsgConst 0 emptyDB 0 0
     hdrEnvelope [7, 8] [] (by rfl) (by rfl) (by decide) (by decide) (by rfl)⟩

/-- Witness for `verify_header_signature` at a one-byte LF signed region
with hex signature `ff` and hex key `00`. -/
theorem verify_header_signature_witness :
    mLf.signature ≠ "" ∧ mLf.key ≠ "" ∧ mLf.signedRegion ≠ [] ∧
    NNTPMessage.Verify envConst mLf =
      envConst.cryptoVerify ([255] ++ envConst.sha512
        (codeSignedInput mLf.signedRegion)) [0] :=
  ⟨by decide, by decide, by decide,
    verify_header_signature envConst mLf [255] [0]
      (by decide) (by decide) (by decide) (by decide) (by decide)⟩

end Srnd
